import Mathlib

/-!
A shallow embedding of `dns_client.go` from the `secureoperator` package:
endpoint parsing, the TTL-respecting DNS cache, and the `LookupIP`
failover loop, together with proofs of the specified properties.

Modelling conventions:
* `net.IP` values are opaque to the client (they are only collected and
  returned), so the resolved-address type is a type parameter `α`.
* `time.Time` / `time.Duration` are modelled as `Nat` seconds; the strict
  `expires.After(now)` comparison becomes `now < expires`.
* The injectable `dns.ExchangeContext` transport is a function from the
  server endpoint to an `ExchangeResult`: a timeout `net.Error`, some other
  non-nil error (payload type `ε`), or a successful `dns.Msg` reply.
* The mutex-guarded map of `dnsCache` is modelled as a lookup function
  `String → Option (dnsCacheRecord α)`; `Set` is pointwise update.
* `LookupIP` additionally returns the updated client and the list of
  servers whose exchange was invoked, in invocation order, so that
  "does not contact the transport" is expressible.
-/

set_option autoImplicit false

namespace SecureOperator

/-- A DNS resource record from a reply's answer section.  The Go code only
distinguishes records that type-assert to `*dns.A` (carrying an IPv4
address) from every other record type; both expose a header TTL. -/
inductive RR (α : Type) where
  | A (ttl : Nat) (addr : α)
  | other (ttl : Nat)
  deriving DecidableEq

/-- Does the record type-assert to `*dns.A`? -/
def RR.isA {α : Type} : RR α → Bool
  | .A _ _ => true
  | .other _ => false

/-- The address payload of an A record, `none` for any other type. -/
def RR.aAddr {α : Type} : RR α → Option α
  | .A _ a => some a
  | .other _ => none

/-- A DNS message reply; the client only reads its answer section. -/
structure Msg (α : Type) where
  Answer : List (RR α)
  deriving DecidableEq

/-- Outcome of one `exchange(ctx, msg, server)` round trip: a `net.Error`
whose `Timeout()` is true, any other non-nil error, or a reply. -/
inductive ExchangeResult (α ε : Type) where
  | timeout
  | failure (e : ε)
  | success (reply : Msg α)
  deriving DecidableEq

/-- Errors `LookupIP` can return: a transport error passed through
unchanged, or `ErrAllServersFailed`. -/
inductive LookupError (ε : Type) where
  | transport (e : ε)
  | allServersFailed
  deriving DecidableEq

/-- `Endpoint` represents a host/port combo. -/
structure Endpoint (α : Type) where
  IP : α
  Port : Nat
  deriving DecidableEq

/-- `Endpoints` is a list of `Endpoint` objects. -/
abbrev Endpoints (α : Type) := List (Endpoint α)

/-- `Endpoints.Random`: `e[rand.Intn(len(e))]`.  `rand.Intn (len e)` is
some value `r % e.length` when the list is non-empty; on an empty list
`rand.Intn 0` panics, modelled as `none`. -/
def Endpoints.Random {α : Type} (e : Endpoints α) (r : Nat) : Option (Endpoint α) :=
  if h : 0 < e.length then some (e.get ⟨r % e.length, Nat.mod_lt r h⟩) else none

/-- `dnsCacheRecord`: the raw reply, the collected IPs and the expiry. -/
structure dnsCacheRecord (α : Type) where
  msg : Msg α
  ips : List α
  expires : Nat
  deriving DecidableEq

/-- The record store of `dnsCache`, keyed by hostname. -/
def dnsCache (α : Type) := String → Option (dnsCacheRecord α)

/-- `newDNSCache` starts empty. -/
def newDNSCache {α : Type} : dnsCache α := fun _ => none

/-- `dnsCache.Set`: store/overwrite the record under the key. -/
def dnsCache.Set {α : Type} (d : dnsCache α) (key : String) (record : dnsCacheRecord α) :
    dnsCache α :=
  fun k => if k = key then some record else d k

/-- `DNSClientOptions`, with the timeout in seconds. -/
structure DNSClientOptions where
  Timeout : Nat
  deriving DecidableEq

/-- `defaultDNSClientTimeout = 10 * time.Second`, in seconds. -/
def defaultDNSClientTimeout : Nat := 10

/-- `SimpleDNSClient`: configured servers, cache, options. -/
structure SimpleDNSClient (α : Type) where
  servers : Endpoints α
  cache : dnsCache α
  opts : DNSClientOptions

/-- `NewSimpleDNSClient` creates a `SimpleDNSClient`; `opts = none` models a
nil options pointer. -/
def NewSimpleDNSClient {α : Type} (servers : Endpoints α) (opts : Option DNSClientOptions) :
    Except String (SimpleDNSClient α) :=
  if servers.length < 1 then
    .error "at least one endpoint server is required"
  else
    let o := opts.getD ⟨0⟩
    let o := if o.Timeout = 0 then ⟨defaultDNSClientTimeout⟩ else o
    .ok ⟨servers, newDNSCache, o⟩

/-- The answer-section loop of `LookupIP`, carrying the accumulated
`rec.ips` and `shortestTTL` (initially the zero value `0`):
an A record appends its address and replaces `shortestTTL` when
`shortestTTL == 0 || h.Ttl < shortestTTL`; other records are skipped. -/
def answerLoop {α : Type} : List (RR α) → List α → Nat → List α × Nat
  | [], ips, shortestTTL => (ips, shortestTTL)
  | .A ttl a :: rest, ips, shortestTTL =>
      answerLoop rest (ips ++ [a])
        (if shortestTTL = 0 ∨ ttl < shortestTTL then ttl else shortestTTL)
  | .other _ :: rest, ips, shortestTTL => answerLoop rest ips shortestTTL

/-- Collected IPs and `shortestTTL` for a whole answer section. -/
def answerScan {α : Type} (ans : List (RR α)) : List α × Nat :=
  answerLoop ans [] 0

/-- The server-iteration loop of `LookupIP` on the given server list:
a timeout error advances to the next server, any other error aborts,
a success builds the cache record with expiry `respTime + shortestTTL`,
stores it, and returns its IPs.  Also returns the updated cache and the
servers whose exchange was invoked, in order. -/
def lookupServers {α ε : Type} (exch : Endpoint α → ExchangeResult α ε) (respTime : Nat)
    (host : String) (cache : dnsCache α) :
    Endpoints α → Except (LookupError ε) (List α) × dnsCache α × Endpoints α
  | [] => (.error .allServersFailed, cache, [])
  | server :: rest =>
    match exch server with
    | .timeout =>
        let r := lookupServers exch respTime host cache rest
        (r.1, r.2.1, server :: r.2.2)
    | .failure e => (.error (.transport e), cache, [server])
    | .success reply =>
        let scanned := answerScan reply.Answer
        let record : dnsCacheRecord α := ⟨reply, scanned.1, respTime + scanned.2⟩
        (.ok scanned.1, cache.Set host record, [server])

/-- The cache-miss path of `LookupIP`: run the server loop over the
client's configured servers and thread the updated cache back in. -/
def lookupMiss {α ε : Type} (exch : Endpoint α → ExchangeResult α ε) (respTime : Nat)
    (c : SimpleDNSClient α) (host : String) :
    Except (LookupError ε) (List α) × SimpleDNSClient α × Endpoints α :=
  let r := lookupServers exch respTime host c.cache c.servers
  (r.1, { c with cache := r.2.1 }, r.2.2)

/-- `LookupIP`: return the cached entry while `entry.expires.After(now)`
(strictly `now < expires`), otherwise iterate the servers.  `now` is the
clock at the cache check, `respTime` the clock when a successful reply is
processed into a record. -/
def LookupIP {α ε : Type} (exch : Endpoint α → ExchangeResult α ε) (now respTime : Nat)
    (c : SimpleDNSClient α) (host : String) :
    Except (LookupError ε) (List α) × SimpleDNSClient α × Endpoints α :=
  match c.cache host with
  | some entry =>
      if now < entry.expires then (.ok entry.ips, c, [])
      else lookupMiss exch respTime c host
  | none => lookupMiss exch respTime c host

/-- Parse errors of `ParseEndpoint`. -/
inductive ParseError where
  | invalidEndpointString
  | failedParsingIP
  | failedParsingPort
  deriving DecidableEq

/-- `strings.Split(s, ":")` on a character list: the segments between
colons, always at least one segment. -/
def splitOnColon : List Char → List (List Char)
  | [] => [[]]
  | c :: cs =>
    match splitOnColon cs with
    | [] => [[c]]
    | s :: rest => if c = ':' then [] :: s :: rest else (c :: s) :: rest

/-- `strconv.ParseUint(s, 10, 16)`: non-empty, ASCII decimal digits only,
value below `2^16`; `none` models a non-nil error. -/
def parseUint16 (s : List Char) : Option Nat :=
  if s = [] then none
  else if s.all Char.isDigit then
    let n := s.foldl (fun acc c => acc * 10 + (c.toNat - 48)) 0
    if n < 65536 then some n else none
  else none

/-- `ParseEndpoint` parses a string (as a character list) into an
`Endpoint`; `parseIP` models `net.ParseIP`, returning `none` for nil.
If a port is not present, `defaultPort` is used. -/
def ParseEndpoint {α : Type} (parseIP : List Char → Option α) (endpoint : List Char)
    (defaultPort : Nat) : Except ParseError (Endpoint α) :=
  let e := splitOnColon endpoint
  if 2 < e.length then .error .invalidEndpointString
  else
    match parseIP (e.headD []) with
    | none => .error .failedParsingIP
    | some ip =>
      match e with
      | _ :: p :: _ =>
        match parseUint16 p with
        | none => .error .failedParsingPort
        | some i => .ok ⟨ip, i⟩
      | _ => .ok ⟨ip, defaultPort⟩

/-- The spec's notion of the cache TTL, stated from its words: the
minimum TTL among the A-type address answer records, zero when there are
none.  Compared against the code's `answerScan`. -/
def specMinTTL {α : Type} (ans : List (RR α)) : Nat :=
  match ans.filterMap (fun r => match r with | .A ttl _ => some ttl | .other _ => none) with
  | [] => 0
  | t :: ts => ts.foldl Nat.min t

/-! ### Concrete instances used by the claim theorems and witnesses -/

/-- The concrete answer section the spec's minimum-TTL invariant fails on:
A records with TTLs 30, 0, 50 in that order. -/
def c1Answer : List (RR Nat) := [.A 30 1, .A 0 2, .A 50 3]

def c1Client : SimpleDNSClient Nat := ⟨[⟨9, 53⟩], newDNSCache, ⟨10⟩⟩

def c1Exch : Endpoint Nat → ExchangeResult Nat Unit := fun _ => .success ⟨c1Answer⟩

def wClientFF : SimpleDNSClient Nat := ⟨[⟨1, 53⟩, ⟨2, 53⟩, ⟨3, 53⟩], newDNSCache, ⟨10⟩⟩

def wExchFF : Endpoint Nat → ExchangeResult Nat Unit := fun s =>
  if s.IP = 1 then .timeout else if s.IP = 2 then .failure () else .success ⟨[.A 60 9]⟩

def wClientTO : SimpleDNSClient Nat := ⟨[⟨1, 53⟩, ⟨2, 53⟩], newDNSCache, ⟨10⟩⟩

def wExchTO : Endpoint Nat → ExchangeResult Nat Unit := fun _ => .timeout

def wEntry5 : dnsCacheRecord Nat := ⟨⟨[]⟩, [7], 100⟩

def wClient5 : SimpleDNSClient Nat := ⟨[⟨1, 53⟩], (newDNSCache).Set "h" wEntry5, ⟨10⟩⟩

def wExch5 : Endpoint Nat → ExchangeResult Nat Unit := fun _ => .success ⟨[.A 60 8]⟩

def wClient6 : SimpleDNSClient Nat := ⟨[⟨1, 53⟩], newDNSCache, ⟨10⟩⟩

def wExch6 : Endpoint Nat → ExchangeResult Nat Unit := fun _ => .success ⟨[.A 60 7]⟩

def wRecord6 : dnsCacheRecord Nat := ⟨⟨[.A 60 7]⟩, [7], 160⟩

def wClient6' : SimpleDNSClient Nat := ⟨[⟨1, 53⟩], (newDNSCache).Set "h" wRecord6, ⟨10⟩⟩

def wExchFail : Endpoint Nat → ExchangeResult Nat Unit := fun _ => .failure ()

def wAns7 : List (RR Nat) := [.other 5, .A 30 1, .other 2, .A 20 4]

def wClient7 : SimpleDNSClient Nat := ⟨[⟨1, 53⟩], newDNSCache, ⟨10⟩⟩

def wExch7 : Endpoint Nat → ExchangeResult Nat Unit := fun _ => .success ⟨wAns7⟩

def wReply10 : Msg Nat := ⟨[.other 40]⟩

def wClient10 : SimpleDNSClient Nat := ⟨[⟨1, 53⟩], newDNSCache, ⟨10⟩⟩

def wExch10 : Endpoint Nat → ExchangeResult Nat Unit := fun _ => .success wReply10

def wClient10' : SimpleDNSClient Nat :=
  { wClient10 with cache := (wClient10.cache).Set "h" ⟨wReply10, [], 100⟩ }

def wParseIP : List Char → Option Nat := fun l => if l = ['1'] then some 1 else none

/-! ### Helper lemmas about the answer-section loop -/

theorem answerLoop_fst {α : Type} (l : List (RR α)) :
    ∀ ips s, (answerLoop l ips s).1 = ips ++ l.filterMap RR.aAddr := by
  induction l with
  | nil => intro ips s; simp [answerLoop]
  | cons r rest ih =>
    intro ips s
    cases r with
    | A ttl a => simp [answerLoop, RR.aAddr, ih]
    | other ttl => simp [answerLoop, RR.aAddr, ih]

theorem answerLoop_filter {α : Type} (l : List (RR α)) :
    ∀ ips s, answerLoop l ips s = answerLoop (l.filter RR.isA) ips s := by
  induction l with
  | nil => intro ips s; rfl
  | cons r rest ih =>
    intro ips s
    cases r with
    | A ttl a => simp [answerLoop, RR.isA, List.filter_cons, ih]
    | other ttl => simp [answerLoop, RR.isA, List.filter_cons, ih]

theorem answerLoop_noA {α : Type} (l : List (RR α)) (h : ∀ r ∈ l, RR.isA r = false) :
    ∀ ips s, answerLoop l ips s = (ips, s) := by
  induction l with
  | nil => intro ips s; rfl
  | cons r rest ih =>
    intro ips s
    cases r with
    | A ttl a =>
      have hA := h (RR.A ttl a) (by simp)
      simp [RR.isA] at hA
    | other ttl =>
      simp only [answerLoop]
      exact ih (fun x hx => h x (by simp [hx])) ips s

/-! ### Helper lemmas about the server-iteration loop -/

theorem lookupServers_timeout_prefix {α ε : Type} (exch : Endpoint α → ExchangeResult α ε)
    (respTime : Nat) (host : String) (cache : dnsCache α) (rest : Endpoints α) :
    ∀ pre : Endpoints α, (∀ s ∈ pre, exch s = .timeout) →
    lookupServers exch respTime host cache (pre ++ rest) =
      ((lookupServers exch respTime host cache rest).1,
       (lookupServers exch respTime host cache rest).2.1,
       pre ++ (lookupServers exch respTime host cache rest).2.2) := by
  intro pre
  induction pre with
  | nil => intro _; simp
  | cons s pre ih =>
    intro h
    have hs : exch s = .timeout := h s (by simp)
    have ih2 := ih (fun x hx => h x (by simp [hx]))
    simp [lookupServers, hs, ih2]

theorem lookupServers_ok_cache {α ε : Type} (exch : Endpoint α → ExchangeResult α ε)
    (respTime : Nat) (host : String) (cache : dnsCache α) :
    ∀ (servers : Endpoints α) (ips : List α) (cache2 : dnsCache α) (calls : Endpoints α),
    lookupServers exch respTime host cache servers = (.ok ips, cache2, calls) →
    ∃ record, cache2 host = some record ∧ record.ips = ips := by
  intro servers
  induction servers with
  | nil => intro ips cache2 calls h; simp [lookupServers] at h
  | cons s rest ih =>
    intro ips cache2 calls h
    cases hx : exch s with
    | timeout =>
      rcases hr : lookupServers exch respTime host cache rest with ⟨r1, r2, r3⟩
      rw [lookupServers, hx, hr] at h
      simp only [Prod.mk.injEq] at h
      exact ih ips cache2 r3 (by rw [hr, h.1, h.2.1])
    | failure e =>
      rw [lookupServers, hx] at h
      simp at h
    | success reply =>
      rw [lookupServers, hx] at h
      simp only [Prod.mk.injEq, Except.ok.injEq] at h
      refine ⟨⟨reply, (answerScan reply.Answer).1, respTime + (answerScan reply.Answer).2⟩,
        ?_, h.1⟩
      rw [← h.2.1]
      simp [dnsCache.Set]

theorem lookupServers_calls_ne_nil {α ε : Type} (exch : Endpoint α → ExchangeResult α ε)
    (respTime : Nat) (host : String) (cache : dnsCache α) (s : Endpoint α)
    (rest : Endpoints α) :
    (lookupServers exch respTime host cache (s :: rest)).2.2 ≠ [] := by
  cases hx : exch s <;> simp [lookupServers, hx]

/-! ### Helper lemmas about colon splitting -/

theorem splitOnColon_ne_nil (l : List Char) : splitOnColon l ≠ [] := by
  cases l with
  | nil => simp [splitOnColon]
  | cons c cs =>
    rw [splitOnColon]
    cases h : splitOnColon cs with
    | nil => simp
    | cons s rest => by_cases hc : c = ':' <;> simp [hc]

theorem length_splitOnColon (l : List Char) :
    (splitOnColon l).length = l.count ':' + 1 := by
  induction l with
  | nil => simp [splitOnColon]
  | cons c cs ih =>
    rw [splitOnColon]
    cases h : splitOnColon cs with
    | nil => exact absurd h (splitOnColon_ne_nil cs)
    | cons s rest =>
      rw [h] at ih
      simp only [List.length_cons] at ih
      by_cases hc : c = ':'
      · subst hc
        simp [List.count_cons]
        omega
      · simp [List.count_cons, hc, Ne.symm hc]
        omega

theorem splitOnColon_no_colon (l : List Char) (h : ':' ∉ l) : splitOnColon l = [l] := by
  induction l with
  | nil => rfl
  | cons c cs ih =>
    have hc : c ≠ ':' := fun e => h (by rw [e]; exact List.mem_cons_self _ _)
    rw [splitOnColon, ih (fun hm => h (List.mem_cons_of_mem _ hm))]
    simp [hc]

theorem splitOnColon_append (h t : List Char) (hh : ':' ∉ h) :
    splitOnColon (h ++ ':' :: t) = h :: splitOnColon t := by
  induction h with
  | nil =>
    rw [List.nil_append, splitOnColon]
    cases hs : splitOnColon t with
    | nil => exact absurd hs (splitOnColon_ne_nil t)
    | cons s rest => simp [hs]
  | cons c cs ih =>
    have hc : c ≠ ':' := fun e => hh (by rw [e]; exact List.mem_cons_self _ _)
    have ih2 := ih (fun hm => hh (List.mem_cons_of_mem _ hm))
    rw [List.cons_append, splitOnColon, ih2]
    simp [hc]

/-! ### C1 -/

/-- C1: the expiry is NOT always response time plus the minimum A-record
TTL.  For TTLs {30, 10, 50} the scan does yield 10, but on the failing
input {30, 0, 50} a successful lookup stores an expiry of
`respTime + 50` while the minimum TTL of the answer is `0`: the
`shortestTTL == 0` "first seen" test re-fires after a zero TTL, so the
record from a TTL-0 answer overstays the shortest-lived answer. -/
theorem lookupIP_zero_ttl_divergence :
    (LookupIP c1Exch 0 1000 c1Client "h").2.1.cache "h" =
      some ⟨⟨c1Answer⟩, [1, 2, 3], 1000 + 50⟩
    ∧ specMinTTL c1Answer = 0
    ∧ (answerScan [(RR.A 30 1 : RR Nat), .A 10 2, .A 50 3]).2 = 10
    ∧ 1000 + 50 ≠ 1000 + specMinTTL c1Answer := by
  refine ⟨by decide, rfl, rfl, by decide⟩

/-! ### C8 -/

/-- C8: construction fails on an empty server list; succeeds on any
non-empty list; a nil options pointer or a zero timeout yields the
10-second default per-attempt timeout. -/
theorem newSimpleDNSClient_spec {α : Type} :
    (∀ opts : Option DNSClientOptions,
      NewSimpleDNSClient ([] : Endpoints α) opts =
        .error "at least one endpoint server is required")
    ∧ (∀ (servers : Endpoints α) (opts : Option DNSClientOptions), servers ≠ [] →
        ∃ c, NewSimpleDNSClient servers opts = .ok c ∧ c.servers = servers)
    ∧ (∀ (servers : Endpoints α) (opts : Option DNSClientOptions), servers ≠ [] →
        (opts = none ∨ opts = some ⟨0⟩) →
        ∃ c, NewSimpleDNSClient servers opts = .ok c ∧
          c.opts.Timeout = defaultDNSClientTimeout)
    ∧ defaultDNSClientTimeout = 10 := by
  have hlen : ∀ servers : Endpoints α, servers ≠ [] → ¬ servers.length < 1 := by
    intro servers h
    simpa [Nat.lt_one_iff, List.length_eq_zero] using h
  refine ⟨fun opts => rfl, ?_, ?_, rfl⟩
  · intro servers opts h
    refine ⟨⟨servers, newDNSCache,
      if (opts.getD ⟨0⟩).Timeout = 0 then ⟨defaultDNSClientTimeout⟩
      else opts.getD ⟨0⟩⟩, ?_, rfl⟩
    simp [NewSimpleDNSClient, hlen servers h]
  · intro servers opts h ho
    rcases ho with ho | ho <;> subst ho <;>
      refine ⟨⟨servers, newDNSCache, ⟨defaultDNSClientTimeout⟩⟩, ?_, rfl⟩ <;>
      simp [NewSimpleDNSClient, hlen servers h]

/-- Witness for C8 at concrete inputs. -/
theorem newSimpleDNSClient_spec_witness :
    NewSimpleDNSClient ([] : Endpoints Nat) none =
      .error "at least one endpoint server is required"
    ∧ (∃ c, NewSimpleDNSClient [(⟨1, 53⟩ : Endpoint Nat)] none = .ok c ∧
        c.servers = [⟨1, 53⟩])
    ∧ (∃ c, NewSimpleDNSClient [(⟨1, 53⟩ : Endpoint Nat)] none = .ok c ∧
        c.opts.Timeout = defaultDNSClientTimeout) :=
  ⟨newSimpleDNSClient_spec.1 none,
   newSimpleDNSClient_spec.2.1 [⟨1, 53⟩] none (by decide),
   newSimpleDNSClient_spec.2.2.1 [⟨1, 53⟩] none (by decide) (Or.inl rfl)⟩

/-! ### C9 -/

/-- C9: on a non-empty endpoint list `Random` returns a member of the
list for every value of the random source; on the empty list the
operation is not total (the index into the empty list fails, modelled as
`none`), so totality holds only under the non-emptiness precondition. -/
theorem endpoints_random_spec {α : Type} :
    (∀ (e : Endpoints α) (r : Nat), e ≠ [] →
      ∃ x, Endpoints.Random e r = some x ∧ x ∈ e)
    ∧ (∀ r : Nat, Endpoints.Random ([] : Endpoints α) r = none) := by
  constructor
  · intro e r h
    have hpos : 0 < e.length := List.length_pos.mpr h
    refine ⟨e.get ⟨r % e.length, Nat.mod_lt r hpos⟩, ?_, List.get_mem _ _ _⟩
    simp [Endpoints.Random, hpos]
  · intro r
    simp [Endpoints.Random]

/-- Witness for C9 at concrete inputs. -/
theorem endpoints_random_spec_witness :
    (∃ x, Endpoints.Random [(⟨1, 53⟩ : Endpoint Nat), ⟨2, 53⟩] 5 = some x ∧
      x ∈ [(⟨1, 53⟩ : Endpoint Nat), ⟨2, 53⟩])
    ∧ Endpoints.Random ([] : Endpoints Nat) 5 = none :=
  ⟨endpoints_random_spec.1 [⟨1, 53⟩, ⟨2, 53⟩] 5 (by decide),
   endpoints_random_spec.2 5⟩

/-! ### C2 -/

/-- C2: on a cache miss the servers are tried in configured order;
servers whose exchange times out are skipped over, and the first
non-timeout error is returned immediately: the remaining servers are not
contacted (the invoked-server list is exactly the timed-out prefix plus
the failing server) and the cache is left unchanged (the returned client
is the original one). -/
theorem lookupIP_failfast {α ε : Type} (exch : Endpoint α → ExchangeResult α ε)
    (now respTime : Nat) (c : SimpleDNSClient α) (host : String) (e : ε)
    (pre post : Endpoints α) (s : Endpoint α)
    (hmiss : c.cache host = none)
    (hserv : c.servers = pre ++ s :: post)
    (hpre : ∀ x ∈ pre, exch x = .timeout)
    (hs : exch s = .failure e) :
    LookupIP exch now respTime c host = (.error (.transport e), c, pre ++ [s]) := by
  have hloop : lookupServers exch respTime host c.cache c.servers =
      (.error (.transport e), c.cache, pre ++ [s]) := by
    rw [hserv,
      lookupServers_timeout_prefix exch respTime host c.cache (s :: post) pre hpre]
    simp [lookupServers, hs]
  simp only [LookupIP, hmiss, lookupMiss, hloop]

/-- Witness for C2: server 1 times out, server 2 hard-fails, server 3 is
never contacted and the cache is untouched. -/
theorem lookupIP_failfast_witness :
    LookupIP wExchFF 0 0 wClientFF "h" =
      (.error (.transport ()), wClientFF, [⟨1, 53⟩, ⟨2, 53⟩]) :=
  lookupIP_failfast wExchFF 0 0 wClientFF "h" () [⟨1, 53⟩] [⟨3, 53⟩] ⟨2, 53⟩
    rfl rfl (by decide) (by decide)

/-! ### C4 -/

/-- C4: on a cache miss where every configured server's exchange times
out, `LookupIP` returns `ErrAllServersFailed`, no IPs, and an unchanged
cache, after contacting every server in order. -/
theorem lookupIP_all_timeout {α ε : Type} (exch : Endpoint α → ExchangeResult α ε)
    (now respTime : Nat) (c : SimpleDNSClient α) (host : String)
    (hmiss : c.cache host = none)
    (hall : ∀ s ∈ c.servers, exch s = .timeout) :
    LookupIP exch now respTime c host = (.error .allServersFailed, c, c.servers) := by
  have hloop : lookupServers exch respTime host c.cache c.servers =
      (.error .allServersFailed, c.cache, c.servers) := by
    have h := lookupServers_timeout_prefix exch respTime host c.cache [] c.servers hall
    simpa [lookupServers] using h
  simp only [LookupIP, hmiss, lookupMiss, hloop]

/-- Witness for C4: both servers time out. -/
theorem lookupIP_all_timeout_witness :
    LookupIP wExchTO 0 0 wClientTO "h" =
      (.error .allServersFailed, wClientTO, wClientTO.servers) :=
  lookupIP_all_timeout wExchTO 0 0 wClientTO "h" rfl (by decide)

/-! ### C5 -/

/-- C5: a cached record's IPs are returned exactly while `now` is
strictly before its expiry; once `expires ≤ now` the call takes the
upstream path (`lookupMiss`), and when at least one server is configured
at least one exchange is invoked rather than the stale entry returned. -/
theorem lookupIP_ttl_expiry {α ε : Type} (exch : Endpoint α → ExchangeResult α ε)
    (now respTime : Nat) (c : SimpleDNSClient α) (host : String)
    (entry : dnsCacheRecord α)
    (hentry : c.cache host = some entry) :
    (now < entry.expires →
      LookupIP exch now respTime c host = (.ok entry.ips, c, []))
    ∧ (entry.expires ≤ now →
        LookupIP exch now respTime c host = lookupMiss exch respTime c host
        ∧ (c.servers ≠ [] → (LookupIP exch now respTime c host).2.2 ≠ [])) := by
  constructor
  · intro hlt
    simp [LookupIP, hentry, hlt]
  · intro hge
    have hnot : ¬ now < entry.expires := Nat.not_lt.mpr hge
    constructor
    · simp [LookupIP, hentry, hnot]
    · intro hne
      cases hserv : c.servers with
      | nil => exact absurd hserv hne
      | cons s rest =>
        have h := lookupServers_calls_ne_nil exch respTime host c.cache s rest
        simpa [LookupIP, hentry, hnot, lookupMiss, hserv] using h

/-- Witness for C5: at time 50 the entry (expiry 100) is served from
cache; at time 100 the call takes the upstream path and contacts a
server. -/
theorem lookupIP_ttl_expiry_witness :
    LookupIP wExch5 50 50 wClient5 "h" = (.ok [7], wClient5, [])
    ∧ LookupIP wExch5 100 100 wClient5 "h" = lookupMiss wExch5 100 wClient5 "h"
    ∧ (LookupIP wExch5 100 100 wClient5 "h").2.2 ≠ [] :=
  ⟨(lookupIP_ttl_expiry wExch5 50 50 wClient5 "h" wEntry5 (by decide)).1 (by decide),
   ((lookupIP_ttl_expiry wExch5 100 100 wClient5 "h" wEntry5 (by decide)).2 (by decide)).1,
   ((lookupIP_ttl_expiry wExch5 100 100 wClient5 "h" wEntry5 (by decide)).2 (by decide)).2
     (by decide)⟩

/-! ### C6 -/

/-- C6: if a first `LookupIP` for a fresh host succeeded (storing a
cache record), then a second call for the same host while the stored
record is unexpired returns the identical IP sequence, leaves the client
unchanged, and invokes no exchange at all (empty invoked-server list),
whatever transport the second call would use. -/
theorem lookupIP_cache_idempotent {α ε : Type}
    (exch exch2 : Endpoint α → ExchangeResult α ε)
    (now1 t1 now2 t2 : Nat) (c c1 : SimpleDNSClient α) (host : String)
    (ips : List α) (calls : Endpoints α) (record : dnsCacheRecord α)
    (hmiss : c.cache host = none)
    (h1 : LookupIP exch now1 t1 c host = (.ok ips, c1, calls))
    (hrec : c1.cache host = some record)
    (hfresh : now2 < record.expires) :
    LookupIP exch2 now2 t2 c1 host = (.ok ips, c1, []) := by
  have hmiss1 : LookupIP exch now1 t1 c host = lookupMiss exch t1 c host := by
    simp [LookupIP, hmiss]
  rw [hmiss1] at h1
  rcases hr : lookupServers exch t1 host c.cache c.servers with ⟨r1, r2, r3⟩
  rw [lookupMiss, hr] at h1
  simp only [Prod.mk.injEq] at h1
  obtain ⟨h11, h12, h13⟩ := h1
  obtain ⟨rec2, hrec2, hips⟩ :=
    lookupServers_ok_cache exch t1 host c.cache c.servers ips r2 r3 (by rw [hr, h11])
  have hcache1 : c1.cache host = r2 host := by rw [← h12]
  rw [hrec2] at hcache1
  have hrr : record = rec2 := Option.some.inj (hrec.symm.trans hcache1)
  have hips2 : record.ips = ips := by rw [hrr, hips]
  simp [LookupIP, hrec, hfresh, hips2]

/-- Witness for C6: the first call (response time 100, TTL 60) stores a
record expiring at 160; a second call at time 120 — over a transport
that would hard-fail if contacted — returns the same single IP with no
exchange invoked. -/
theorem lookupIP_cache_idempotent_witness :
    LookupIP wExch6 0 100 wClient6 "h" = (.ok [7], wClient6', [⟨1, 53⟩])
    ∧ LookupIP wExchFail 120 120 wClient6' "h" = (.ok [7], wClient6', []) := by
  have h1 : LookupIP wExch6 0 100 wClient6 "h" = (.ok [7], wClient6', [⟨1, 53⟩]) := rfl
  exact ⟨h1, lookupIP_cache_idempotent wExch6 wExchFail 0 100 120 120 wClient6 wClient6'
    "h" [7] [⟨1, 53⟩] wRecord6 rfl h1 (by decide) (by decide)⟩

/-! ### C7 -/

/-- C7: the answer scan collects exactly the A-type records' addresses,
in answer order, and is entirely insensitive to non-A records (filtering
them out changes neither the IPs nor the TTL); on a successful first
exchange, `LookupIP` returns `.ok` of precisely those addresses. -/
theorem lookupIP_collects_A_records {α ε : Type} :
    (∀ ans : List (RR α),
      (answerScan ans).1 = ans.filterMap RR.aAddr
      ∧ answerScan ans = answerScan (ans.filter RR.isA))
    ∧ (∀ (exch : Endpoint α → ExchangeResult α ε) (now respTime : Nat)
        (c : SimpleDNSClient α) (host : String) (s : Endpoint α)
        (rest : Endpoints α) (reply : Msg α),
        c.cache host = none → c.servers = s :: rest → exch s = .success reply →
        (LookupIP exch now respTime c host).1 =
          .ok (reply.Answer.filterMap RR.aAddr)) := by
  constructor
  · intro ans
    refine ⟨by simpa using answerLoop_fst ans [] 0, ?_⟩
    rw [answerScan, answerScan, answerLoop_filter]
  · intro exch now respTime c host s rest reply hmiss hserv hx
    have hloop : lookupServers exch respTime host c.cache c.servers =
        (.ok (answerScan reply.Answer).1,
         c.cache.Set host
           ⟨reply, (answerScan reply.Answer).1, respTime + (answerScan reply.Answer).2⟩,
         [s]) := by
      rw [hserv]
      simp [lookupServers]
      rw [hx]
    simp only [LookupIP, hmiss, lookupMiss, hloop]
    simpa [answerScan] using answerLoop_fst reply.Answer [] 0

/-- Witness for C7: a mixed answer section yields exactly the two A
addresses, in order. -/
theorem lookupIP_collects_A_records_witness :
    (answerScan wAns7).1 = wAns7.filterMap RR.aAddr
    ∧ (LookupIP wExch7 0 0 wClient7 "h").1 = .ok (wAns7.filterMap RR.aAddr) :=
  ⟨((lookupIP_collects_A_records (α := Nat) (ε := Unit)).1 wAns7).1,
   (lookupIP_collects_A_records (α := Nat) (ε := Unit)).2 wExch7 0 0 wClient7 "h"
     ⟨1, 53⟩ [] ⟨wAns7⟩ rfl rfl rfl⟩

/-! ### C10 -/

/-- C10: when the first server's exchange succeeds but the answer holds
no A records, `LookupIP` returns an empty IP list with no error and
stores a record whose expiry equals the response time; any lookup at or
after that time takes the upstream path again instead of serving that
record as a cache hit. -/
theorem lookupIP_empty_answer_uncacheable {α ε : Type}
    (exch : Endpoint α → ExchangeResult α ε) (now respTime : Nat)
    (c : SimpleDNSClient α) (host : String) (s : Endpoint α) (rest : Endpoints α)
    (reply : Msg α)
    (hmiss : c.cache host = none)
    (hserv : c.servers = s :: rest)
    (hx : exch s = .success reply)
    (hnoA : ∀ r ∈ reply.Answer, RR.isA r = false) :
    LookupIP exch now respTime c host =
      (.ok [], { c with cache := c.cache.Set host ⟨reply, [], respTime⟩ }, [s])
    ∧ (∀ (exch2 : Endpoint α → ExchangeResult α ε) (now2 t2 : Nat), respTime ≤ now2 →
        LookupIP exch2 now2 t2
            { c with cache := c.cache.Set host ⟨reply, [], respTime⟩ } host =
          lookupMiss exch2 t2
            { c with cache := c.cache.Set host ⟨reply, [], respTime⟩ } host) := by
  have hscan : answerScan reply.Answer = ([], 0) := answerLoop_noA reply.Answer hnoA [] 0
  constructor
  · have hloop : lookupServers exch respTime host c.cache c.servers =
        (.ok [], c.cache.Set host ⟨reply, [], respTime⟩, [s]) := by
      rw [hserv]
      simp [lookupServers, hx, hscan]
    simp only [LookupIP, hmiss, lookupMiss, hloop]
  · intro exch2 now2 t2 hle
    have hhit : c.cache.Set host ⟨reply, [], respTime⟩ host =
        some ⟨reply, [], respTime⟩ := by
      simp [dnsCache.Set]
    have hnot : ¬ now2 < respTime := Nat.not_lt.mpr hle
    simp [LookupIP, hhit, hnot]

/-- Witness for C10: an answer with only a non-A record at response time
100 yields `.ok []` and a record that is already stale at time 100. -/
theorem lookupIP_empty_answer_uncacheable_witness :
    LookupIP wExch10 0 100 wClient10 "h" = (.ok [], wClient10', [⟨1, 53⟩])
    ∧ LookupIP wExch10 100 200 wClient10' "h" = lookupMiss wExch10 200 wClient10' "h" :=
  ⟨(lookupIP_empty_answer_uncacheable wExch10 0 100 wClient10 "h" ⟨1, 53⟩ [] wReply10
      rfl rfl rfl (by decide)).1,
   (lookupIP_empty_answer_uncacheable wExch10 0 100 wClient10 "h" ⟨1, 53⟩ [] wReply10
      rfl rfl rfl (by decide)).2 wExch10 100 200 (by decide)⟩

/-! ### C3 -/

/-- C3: `ParseEndpoint` rejects a string with more than one colon as
`invalidEndpointString`; with at most one colon, a host segment that
does not parse as an IP yields `failedParsingIP`; a present port segment
that does not parse as an unsigned 16-bit integer yields
`failedParsingPort`; a valid `ip:port` string recovers exactly that IP
and port; and a valid IP with no port segment gets the caller-supplied
default port. -/
theorem parseEndpoint_spec {α : Type} (parseIP : List Char → Option α) :
    (∀ (endpoint : List Char) (defaultPort : Nat), 1 < endpoint.count ':' →
      ParseEndpoint parseIP endpoint defaultPort = .error .invalidEndpointString)
    ∧ (∀ (endpoint : List Char) (defaultPort : Nat), endpoint.count ':' ≤ 1 →
        parseIP ((splitOnColon endpoint).headD []) = none →
        ParseEndpoint parseIP endpoint defaultPort = .error .failedParsingIP)
    ∧ (∀ (hseg pseg : List Char) (defaultPort : Nat) (ip : α),
        ':' ∉ hseg → ':' ∉ pseg →
        parseIP hseg = some ip → parseUint16 pseg = none →
        ParseEndpoint parseIP (hseg ++ ':' :: pseg) defaultPort =
          .error .failedParsingPort)
    ∧ (∀ (hseg pseg : List Char) (defaultPort : Nat) (ip : α) (port : Nat),
        ':' ∉ hseg → ':' ∉ pseg →
        parseIP hseg = some ip → parseUint16 pseg = some port →
        ParseEndpoint parseIP (hseg ++ ':' :: pseg) defaultPort = .ok ⟨ip, port⟩)
    ∧ (∀ (endpoint : List Char) (defaultPort : Nat) (ip : α), ':' ∉ endpoint →
        parseIP endpoint = some ip →
        ParseEndpoint parseIP endpoint defaultPort = .ok ⟨ip, defaultPort⟩) := by
  refine ⟨?_, ?_, ?_, ?_, ?_⟩
  · intro endpoint d h
    have hlen : 2 < (splitOnColon endpoint).length := by
      rw [length_splitOnColon]; omega
    simp only [ParseEndpoint, if_pos hlen]
  · intro endpoint d hcount hip
    have hlen : ¬ 2 < (splitOnColon endpoint).length := by
      rw [length_splitOnColon]; omega
    simp only [ParseEndpoint, if_neg hlen, hip]
  · intro hseg pseg d ip hh hp hip hport
    have hsplit : splitOnColon (hseg ++ ':' :: pseg) = [hseg, pseg] := by
      rw [splitOnColon_append hseg pseg hh, splitOnColon_no_colon pseg hp]
    simp only [ParseEndpoint, hsplit]
    simp [hip, hport]
  · intro hseg pseg d ip port hh hp hip hport
    have hsplit : splitOnColon (hseg ++ ':' :: pseg) = [hseg, pseg] := by
      rw [splitOnColon_append hseg pseg hh, splitOnColon_no_colon pseg hp]
    simp only [ParseEndpoint, hsplit]
    simp [hip, hport]
  · intro endpoint d ip h hip
    simp only [ParseEndpoint, splitOnColon_no_colon endpoint h]
    simp [hip]

/-- Witness for C3 at concrete inputs (host `"1"` is the one string the
sample IP parser accepts, mapped to the address `1`). -/
theorem parseEndpoint_spec_witness :
    ParseEndpoint wParseIP "1:2:3".toList 7 = .error .invalidEndpointString
    ∧ ParseEndpoint wParseIP "x".toList 7 = .error .failedParsingIP
    ∧ ParseEndpoint wParseIP "1:x".toList 7 = .error .failedParsingPort
    ∧ ParseEndpoint wParseIP "1:53".toList 7 = .ok ⟨1, 53⟩
    ∧ ParseEndpoint wParseIP "1".toList 7 = .ok ⟨1, 7⟩ :=
  ⟨(parseEndpoint_spec wParseIP).1 "1:2:3".toList 7 (by decide),
   (parseEndpoint_spec wParseIP).2.1 "x".toList 7 (by decide) (by decide),
   (parseEndpoint_spec wParseIP).2.2.1 ['1'] ['x'] 7 1 (by decide) (by decide)
     (by decide) (by decide),
   (parseEndpoint_spec wParseIP).2.2.2.1 ['1'] ['5', '3'] 7 1 53 (by decide)
     (by decide) (by decide) (by decide),
   (parseEndpoint_spec wParseIP).2.2.2.2 ['1'] 7 1 (by decide) (by decide)⟩

end SecureOperator
